import Mathlib

/-!
Shallow embedding of the kilo_rust terminal text editor
(src/file_syntax.rs, src/highlight.rs, src/window.rs, src/input.rs).

Strings are modelled as `List Char` (the specification assumes whole-character
indexing throughout; all inputs used in the theorems below are ASCII, for which
Rust's byte-based `len`/slicing agrees with character counting).  I/O (terminal,
files) is external: file reads appear as the list of lines handed to
`open_file`, key input as a list of already-decoded `InputType` events, and
writes are assumed to succeed.
-/

set_option autoImplicit false

/-- Model of `HighlightColor` from src/highlight.rs. -/
inductive HighlightColor where
  | Normal
  | Number
  | String
  | Comment
  | MultilineComment
  | Keyword1
  | Keyword2
  | Match
deriving DecidableEq

/-- Model of `FileType` from src/file_syntax.rs. -/
inductive FileType where
  | Undefined
  | C
  | Rust
  | Ruby
deriving DecidableEq

/-- Model of `SyntaxFlags` bitflags from src/file_syntax.rs: bit 0 is `HL_NUMBER`,
bit 1 is `HL_STRING`; modelled as two booleans. -/
structure SyntaxFlags where
  hl_number : Bool
  hl_string : Bool
deriving DecidableEq

/-- Model of `FileSyntax` from src/file_syntax.rs. -/
structure FileSyntax where
  ftype : FileType
  extensions : List (List Char)
  singleline_comment_start : List Char
  multiline_comment_start : List Char
  multiline_comment_end : List Char
  keywords : List (List Char)
  flags : SyntaxFlags
deriving DecidableEq

/-- Model of `FileSyntax::new` from src/file_syntax.rs. -/
def FileSyntax.new : FileSyntax :=
  { ftype := FileType.Undefined
    extensions := []
    singleline_comment_start := "#".toList
    multiline_comment_start := []
    multiline_comment_end := []
    keywords := []
    flags := { hl_number := false, hl_string := false } }

def C_EXTENSIONS : List (List Char) := ["c", "cpp", "h"].map String.toList

def C_KEYWORDS : List (List Char) :=
  ["switch", "if", "while", "for", "break", "continue", "return", "else",
   "struct", "union", "typedef", "static", "enum", "class", "case",
   "int|", "long|", "double|", "float|", "char|", "unsigned|", "signed|",
   "void|"].map String.toList

def RUST_EXTENSIONS : List (List Char) := ["rs"].map String.toList

def RUST_KEYWORDS : List (List Char) :=
  ["as", "break", "const", "continue", "crate", "else", "enum", "extern",
   "false|", "fn", "for", "if", "impl", "in", "let", "loop", "match", "mod",
   "move", "mut", "pub", "ref|", "return", "self|", "Self|", "static",
   "struct", "super", "trait", "true|", "type", "unsafe", "use", "where",
   "while", "async", "await"].map String.toList

def RUBY_EXTENSIONS : List (List Char) := ["rb"].map String.toList

def RUBY_KEYWORDS : List (List Char) :=
  ["__ENCODING__|", "__LINE__|", "__FILE__|", "BEGIN|", "END|", "alias",
   "and", "begin", "break", "case", "class", "def", "defined?", "do", "else",
   "elsif", "end", "ensure", "false|", "for", "if", "in", "module", "next",
   "nil|", "not", "or", "redo", "rescue", "retry", "return", "self|",
   "super", "then", "true|", "undef", "unless", "until", "when", "while",
   "yield "].map String.toList

/-- The C entry of `SYNTAX_DB` from src/file_syntax.rs. -/
def C_SYNTAX : FileSyntax :=
  { ftype := FileType.C
    extensions := C_EXTENSIONS
    singleline_comment_start := "//".toList
    multiline_comment_start := "/*".toList
    multiline_comment_end := "*/".toList
    keywords := C_KEYWORDS
    flags := { hl_number := true, hl_string := true } }

/-- The Rust entry of `SYNTAX_DB` from src/file_syntax.rs. -/
def RUST_SYNTAX : FileSyntax :=
  { ftype := FileType.Rust
    extensions := RUST_EXTENSIONS
    singleline_comment_start := "//".toList
    multiline_comment_start := "/*".toList
    multiline_comment_end := "*/".toList
    keywords := RUST_KEYWORDS
    flags := { hl_number := true, hl_string := true } }

/-- The Ruby entry of `SYNTAX_DB` from src/file_syntax.rs. -/
def RUBY_SYNTAX : FileSyntax :=
  { ftype := FileType.Ruby
    extensions := RUBY_EXTENSIONS
    singleline_comment_start := "#".toList
    multiline_comment_start := "=begin".toList
    multiline_comment_end := "=end".toList
    keywords := RUBY_KEYWORDS
    flags := { hl_number := true, hl_string := true } }

/-- Model of `SYNTAX_DB.get(extension)` from src/file_syntax.rs: the hash map keyed by
extension, rendered as a decidable lookup over the three registered syntaxes. -/
def SYNTAX_DB_get (ext : List Char) : Option FileSyntax :=
  if ext ∈ C_EXTENSIONS then some C_SYNTAX
  else if ext ∈ RUST_EXTENSIONS then some RUST_SYNTAX
  else if ext ∈ RUBY_EXTENSIONS then some RUBY_SYNTAX
  else none

/-- Model of `path.extension().unwrap_or("")` (std behaviour used by `get_syntax` in
src/highlight.rs): the characters after the last dot, `[]` when the path has
no dot. -/
def extension_of (path : List Char) : List Char :=
  if path.contains '.' then (path.reverse.takeWhile (fun c => c ≠ '.')).reverse
  else []

/-- Rust function `get_syntax` from src/highlight.rs (the name here avoids a
reserved suffix). -/
def get_file_stx (path : List Char) : FileSyntax :=
  match SYNTAX_DB_get (extension_of path) with
  | some s => s
  | none => FileSyntax.new

/-- Model of `is_separator` from src/highlight.rs.  (Rust's `char::is_whitespace` is
Unicode-aware; Lean's `Char.isWhitespace` agrees on ASCII, which covers every
input used below.) -/
def is_separator (chr : Char) : Bool :=
  chr.isWhitespace || chr == '\x00' || ",.()+-/*=~%<>[];".toList.contains chr

/-- The `keyword.ends_with("|")` stripping step of the keyword branch of
`Highlight::line_to_highlight_color` (src/highlight.rs): returns the keyword
without a trailing bar and whether it is a Keyword2 (bar-tagged) keyword. -/
def keyword_strip (keyword : List Char) : List Char × Bool :=
  if keyword.getLast? = some '|' then (keyword.dropLast, true) else (keyword, false)

/-- The keyword `for` loop of `Highlight::line_to_highlight_color`
(src/highlight.rs lines 216-239), applied to `remaining = line[ci..]`:
the first keyword that fits (`line[ci..].len() >= kw.len() + 1`), matches the
text, and is followed by a separator wins; `none` when no keyword fires. -/
def keyword_check : List (List Char) → List Char → Option (List Char × Bool)
  | [], _ => none
  | keyword :: rest, remaining =>
    let ks := keyword_strip keyword
    if remaining.length < ks.1.length + 1 then keyword_check rest remaining
    else if remaining.take ks.1.length = ks.1 ∧
        is_separator (remaining.getD ks.1.length '\x00') = true then
      some ks
    else keyword_check rest remaining

/-- The mutable scan variables of `Highlight::line_to_highlight_color`
(src/highlight.rs): the classification row built so far plus `prev_sep`,
`in_string`, `in_comment` and `skip`. -/
structure ScanSt where
  row : List HighlightColor
  prev_sep : Bool
  in_string : Option Char
  in_comment : Bool
  skip : Nat
deriving DecidableEq

/-- The character loop of `Highlight::line_to_highlight_color`
(src/highlight.rs lines 117-247), processing the characters of the line from
position `ci` on.  The first argument of the recursion is `line[ci..]`; the
single-line-comment branch `break`s (returns without recursing).  The length
conditions are written with `line.len() = ci + remaining.length`. -/
def scan_from (stx : FileSyntax) : List Char → Nat → ScanSt → ScanSt
  | [], _, st => st
  | chr :: rest, ci, st =>
    if stx.ftype = FileType.Undefined then
      scan_from stx rest (ci + 1) { st with row := st.row ++ [HighlightColor.Normal] }
    else if 0 < st.skip then
      scan_from stx rest (ci + 1) { st with skip := st.skip - 1 }
    else
      let scs := stx.singleline_comment_start
      let mcs := stx.multiline_comment_start
      let mce := stx.multiline_comment_end
      let remaining := chr :: rest
      let line_len := ci + remaining.length
      let prev_hl :=
        if ci = 0 then HighlightColor.Normal
        else st.row.getD (ci - 1) HighlightColor.Normal
      -- Single line comment
      if 0 < scs.length ∧ st.in_string = none ∧ st.in_comment = false ∧
          scs.length < line_len ∧ ci < line_len - scs.length ∧
          remaining.take scs.length = scs then
        { st with row := st.row ++ List.replicate remaining.length HighlightColor.Comment }
      -- Multiline comment, currently inside one
      else if (0 < mcs.length ∧ 0 < mce.length ∧ st.in_string = none) ∧
          st.in_comment = true then
        let st1 := { st with row := st.row ++ [HighlightColor.MultilineComment] }
        if mce.length ≤ remaining.length ∧ remaining.take mce.length = mce then
          scan_from stx rest (ci + 1)
            { st1 with
                row := st1.row ++ List.replicate (mce.length - 1) HighlightColor.MultilineComment
                skip := mce.length - 2
                in_comment := false
                prev_sep := true }
        else scan_from stx rest (ci + 1) st1
      -- Multiline comment opening marker
      else if (0 < mcs.length ∧ 0 < mce.length ∧ st.in_string = none) ∧
          mcs.length ≤ remaining.length ∧ remaining.take mcs.length = mcs then
        scan_from stx rest (ci + 1)
          { st with
              row := st.row ++ List.replicate mcs.length HighlightColor.MultilineComment
              skip := mcs.length - 1
              in_comment := true }
      -- String, currently inside one
      else if stx.flags.hl_string = true ∧ st.in_string ≠ none then
        let quotation := st.in_string.getD chr
        let st1 := { st with row := st.row ++ [HighlightColor.String] }
        if chr = '\\' ∧ ci + 1 < line_len then
          scan_from stx rest (ci + 1)
            { st1 with row := st1.row ++ [HighlightColor.String], skip := 1 }
        else
          let st2 := if quotation = chr then { st1 with in_string := none } else st1
          scan_from stx rest (ci + 1) { st2 with prev_sep := true }
      -- String opening quote
      else if stx.flags.hl_string = true ∧ (chr = '"' ∨ chr = '\'') then
        scan_from stx rest (ci + 1)
          { st with in_string := some chr, row := st.row ++ [HighlightColor.String] }
      -- Number
      else if stx.flags.hl_number = true ∧
          ((chr.isDigit = true ∧ (st.prev_sep = true ∨ prev_hl = HighlightColor.Number)) ∨
            (chr = '.' ∧ prev_hl = HighlightColor.Number)) then
        scan_from stx rest (ci + 1)
          { st with row := st.row ++ [HighlightColor.Number], prev_sep := false }
      -- Keyword
      else if st.prev_sep = true then
        match keyword_check stx.keywords remaining with
        | some (kw, is_kw2) =>
          let color := if is_kw2 then HighlightColor.Keyword2 else HighlightColor.Keyword1
          let st1 := { st with row := st.row ++ List.replicate kw.length color, skip := kw.length - 1 }
          if 0 < st1.skip then
            scan_from stx rest (ci + 1) { st1 with prev_sep := false }
          else
            scan_from stx rest (ci + 1)
              { st1 with row := st1.row ++ [HighlightColor.Normal], prev_sep := is_separator chr }
        | none =>
          scan_from stx rest (ci + 1)
            { st with row := st.row ++ [HighlightColor.Normal], prev_sep := is_separator chr }
      else
        scan_from stx rest (ci + 1)
          { st with row := st.row ++ [HighlightColor.Normal], prev_sep := is_separator chr }

/-- Model of `Highlight` from src/highlight.rs.  (The first field is called `syntax`
in the source; that word is reserved in Lean, so it is `stx` here.) -/
structure Highlight where
  stx : FileSyntax
  highlights : List (List HighlightColor)
  in_comment : List Bool
deriving DecidableEq

/-- Model of `Highlight::line_to_highlight_color` (src/highlight.rs): runs the scan for
row `row_index` seeded with the previous row's `in_comment` flag, updates the
stored `in_comment` entry when the line's terminal state changed, and returns
the classification row together with `Some(row_index + 1)` exactly when the
next row would need re-scanning. -/
def line_to_highlight_color (h : Highlight) (line : List Char) (row_index : Nat) :
    List HighlightColor × Highlight × Option Nat :=
  let init_in_comment := decide (0 < row_index) && h.in_comment.getD (row_index - 1) false
  let stF := scan_from h.stx line 0
    { row := [], prev_sep := true, in_string := none, in_comment := init_in_comment, skip := 0 }
  let current_in_comment := h.in_comment.getD row_index false
  if stF.in_comment ≠ current_in_comment then
    (stF.row, { h with in_comment := h.in_comment.set row_index stF.in_comment },
      some (row_index + 1))
  else (stF.row, h, none)

/-- Model of `Highlight::update_row` from src/highlight.rs. -/
def Highlight.update_row (h : Highlight) (row_index : Nat) (line : List Char) :
    Highlight × Option Nat :=
  match line_to_highlight_color h line row_index with
  | (row, h2, need_to_update_index) =>
    ({ h2 with highlights := h2.highlights.set row_index row }, need_to_update_index)

/-- Model of `Highlight::insert_row` from src/highlight.rs.  Note the source inserts an
empty row into `highlights` at `row_index` but `push`es the new `in_comment`
flag at the end of the list. -/
def Highlight.insert_row (h : Highlight) (row_index : Nat) (line : List Char) :
    Highlight × Option Nat :=
  let h := { h with
    highlights := h.highlights.insertIdx row_index []
    in_comment := h.in_comment ++ [false] }
  match line_to_highlight_color h line row_index with
  | (row, h2, need_to_update_index) =>
    ({ h2 with highlights := h2.highlights.set row_index row }, need_to_update_index)

/-- Model of `Highlight::remove_row` from src/highlight.rs. -/
def Highlight.remove_row (h : Highlight) (row_index : Nat) : Highlight :=
  { h with
    highlights := h.highlights.eraseIdx row_index
    in_comment := h.in_comment.eraseIdx row_index }

/-- Model of `Highlight::match_row` from src/highlight.rs: overwrite columns
`from..to` of row `row_index` with `Match`. -/
def Highlight.match_row (h : Highlight) (row_index from_ to_ : Nat) : Highlight :=
  let current_highlight :=
    (List.range' from_ (to_ - from_)).foldl
      (fun r col_index => r.set col_index HighlightColor.Match)
      (h.highlights.getD row_index [])
  { h with highlights := h.highlights.set row_index current_highlight }

/-- Model of `Highlight::new` from src/highlight.rs, with the syntax already looked up:
pushes an empty row and a `false` flag per line, then scans the lines in
order (each scan reads the previous line's just-computed `in_comment`). -/
def highlight_new (stx : FileSyntax) (s : List (List Char)) : Highlight :=
  (s.foldl
    (fun (acc : Highlight × Nat) line =>
      let h := { acc.1 with
        highlights := acc.1.highlights ++ [[]]
        in_comment := acc.1.in_comment ++ [false] }
      match line_to_highlight_color h line acc.2 with
      | (row, h2, _) =>
        ({ h2 with highlights := h2.highlights.set acc.2 row }, acc.2 + 1))
    ({ stx := stx, highlights := [], in_comment := [] }, 0)).1

/-- Model of `Highlight::new(s, path)` from src/highlight.rs. -/
def Highlight.new (s : List (List Char)) (path : List Char) : Highlight :=
  highlight_new (get_file_stx path) s

/-- Model of `SearchDirection` from src/window.rs. -/
inductive SearchDirection where
  | Forward
  | Backward
deriving DecidableEq

/-- Model of `CursorMoveDirection` from src/input.rs. -/
inductive CursorMoveDirection where
  | Left
  | Right
  | Up
  | Down
  | PageUp
  | PageDown
  | LineTop
  | LineBottom
deriving DecidableEq

/-- Model of `InputType` from src/input.rs, with `Char` carrying the raw byte. -/
inductive InputType where
  | CursorMove (d : CursorMoveDirection)
  | Char (c : Nat)
  | Del
  | Backspace
  | NoOp
  | ControlS
  | ControlX
deriving DecidableEq

/-- Model of `LoopStatus` from src/input.rs. -/
inductive LoopStatus where
  | CONTINUE
  | STOP
deriving DecidableEq

def CTRL_Q : Nat := 17
def CTRL_S : Nat := 19
/-- Constant `CTRL_R` is referenced by src/window.rs (`crate::input::CTRL_R`); under the
uniform `b'x' & 0x1f` scheme of src/input.rs it is `b'r' & 0x1f = 18`. -/
def CTRL_R : Nat := 18

/-- The editor state of `Window` from src/window.rs, without the pure-output
fields (`stdout`, `text_buffer`) and the wall-clock `message_time`. -/
structure EditorState where
  cx : Nat
  rx : Nat
  cy : Nat
  rows : Nat
  columns : Nat
  row_offset : Nat
  col_offset : Nat
  content_buffer : List (List Char)
  render_buffer : List (List Char)
  filename : Option (List Char)
  status_message : List Char
  dirty : Bool
  quit_confirming : Bool
  search_last_match : Option Nat
  search_direction : SearchDirection
  highlight : Highlight
deriving DecidableEq

def KILO_TAB_STOP : Nat := 8

/-- The character loop of `Window::to_render_line` (src/window.rs lines
578-593).  For a tab at content index `char_index` the source pushes one
space and then pads while `m % KILO_TAB_STOP != 0` starting from
`m = char_index + 1`, which is `(KILO_TAB_STOP - (char_index + 1) %
KILO_TAB_STOP) % KILO_TAB_STOP` further spaces. -/
def to_render_aux : List Char → Nat → List Char
  | [], _ => []
  | c :: rest, char_index =>
    if c = '\t' then
      (' ' :: List.replicate ((KILO_TAB_STOP - (char_index + 1) % KILO_TAB_STOP) % KILO_TAB_STOP) ' ')
        ++ to_render_aux rest (char_index + 1)
    else c :: to_render_aux rest (char_index + 1)

/-- Model of `Window::to_render_line` from src/window.rs. -/
def to_render_line (line : List Char) : List Char := to_render_aux line 0

/-- Modelled from the spec (§4.1 tab expansion), for comparison with
`to_render_line`: a tab emits one space and then pads with spaces until the
rendered length produced so far is a multiple of the tab stop. -/
def render_line_spec (line : List Char) : List Char :=
  line.foldl
    (fun acc c =>
      if c = '\t' then
        (acc ++ [' ']) ++
          List.replicate ((KILO_TAB_STOP - (acc.length + 1) % KILO_TAB_STOP) % KILO_TAB_STOP) ' '
      else acc ++ [c])
    []

/-- The per-character advance shared by `Window::cx_to_rx` and
`Window::rx_to_cx` (src/window.rs): a tab adds
`(KILO_TAB_STOP - 1) - rx % KILO_TAB_STOP` before the unconditional `+ 1`. -/
def rx_advance (rx : Nat) (c : Char) : Nat :=
  if c = '\t' then rx + ((KILO_TAB_STOP - 1) - rx % KILO_TAB_STOP) + 1 else rx + 1

/-- The loop of `Window::cx_to_rx` (src/window.rs lines 323-335): walk the
line, breaking when `cx == char_index`. -/
def cx_to_rx_aux : List Char → Nat → Nat → Nat → Nat
  | [], _, _, rx => rx
  | c :: rest, cx, char_index, rx =>
    if cx = char_index then rx
    else cx_to_rx_aux rest cx (char_index + 1) (rx_advance rx c)

/-- Model of `Window::cx_to_rx` from src/window.rs (the source reads `self.cx`; here
`cx` is an explicit argument). -/
def cx_to_rx (cx : Nat) (line : List Char) : Nat := cx_to_rx_aux line cx 0 0

/-- The loop of `Window::rx_to_cx` (src/window.rs lines 337-349): walk the
line advancing `cur_rx` the same way, returning the current content index as
soon as `cur_rx > rx`; falls off the end with `line.len()`. -/
def rx_to_cx_aux : List Char → Nat → Nat → Nat → Nat
  | [], _, cx, _ => cx
  | rc :: rest, rx, cx, cur_rx =>
    let cur_rx2 := rx_advance cur_rx rc
    if cur_rx2 > rx then cx else rx_to_cx_aux rest rx (cx + 1) cur_rx2

/-- Model of `Window::rx_to_cx` from src/window.rs. -/
def rx_to_cx (rx : Nat) (line : List Char) : Nat := rx_to_cx_aux line rx 0 0

/-- The `match self.content_buffer.get(i) { Some(line) => line.len(), _ => 0 }`
pattern of src/window.rs. -/
def line_len_at (w : EditorState) (i : Nat) : Nat :=
  match w.content_buffer.get? i with
  | some line => line.length
  | none => 0

/-- Model of `Window::editor_set_status_mssage` from src/window.rs (name kept,
including the source's spelling; the timestamp is dropped). -/
def editor_set_status_mssage (w : EditorState) (message : List Char) : EditorState :=
  { w with status_message := message }

/-- Model of `Window::editor_update_row` from src/window.rs: re-render the row and
re-run the highlight scan.  The `need_to_update_index` returned by
`Highlight::update_row` is discarded, exactly as in the source. -/
def editor_update_row (w : EditorState) (at_ : Nat) : EditorState :=
  let w := { w with
    render_buffer := w.render_buffer.set at_ (to_render_line (w.content_buffer.getD at_ [])) }
  match w.highlight.update_row at_ (w.content_buffer.getD at_ []) with
  | (h, _) => { w with highlight := h }

/-- Model of `Window::editor_insert_row` from src/window.rs. -/
def editor_insert_row (w : EditorState) (at_ : Nat) : EditorState :=
  let w := { w with
    render_buffer := w.render_buffer.insertIdx at_ (to_render_line (w.content_buffer.getD at_ [])) }
  match w.highlight.insert_row at_ (w.content_buffer.getD at_ []) with
  | (h, _) => { w with highlight := h }

/-- Model of `Window::insert_char` from src/window.rs.  Note that when the cursor sits
on the virtual line past the buffer the source pushes an empty content line at
the end but calls `editor_insert_row(0)`. -/
def insert_char (w : EditorState) (c : Char) : EditorState :=
  let w :=
    if w.cy = w.content_buffer.length then
      editor_insert_row { w with content_buffer := w.content_buffer ++ [[]] } 0
    else w
  let at_ := min w.cx (w.content_buffer.getD w.cy []).length
  let w := { w with
    content_buffer := w.content_buffer.set w.cy ((w.content_buffer.getD w.cy []).insertIdx at_ c) }
  let w := editor_update_row w w.cy
  { w with cx := w.cx + 1, dirty := true }

/-- Model of `Window::delete_char` from src/window.rs.  The first guard compares `cy`
with `self.rows` (the window height), exactly as in the source. -/
def delete_char (w : EditorState) : EditorState :=
  if w.cy = w.rows then w
  else if w.cx = 0 ∧ w.cy = 0 then w
  else
    let w :=
      if 0 < w.cx then
        let w := { w with
          content_buffer := w.content_buffer.set w.cy
            ((w.content_buffer.getD w.cy []).eraseIdx (w.cx - 1)) }
        let w := { w with cx := w.cx - 1 }
        editor_update_row w w.cy
      else
        let w := { w with cx := (w.content_buffer.getD (w.cy - 1) []).length }
        let line := w.content_buffer.getD w.cy []
        let w := { w with
          content_buffer := w.content_buffer.set (w.cy - 1)
            ((w.content_buffer.getD (w.cy - 1) []) ++ line) }
        let w := editor_update_row w (w.cy - 1)
        let w := { w with
          content_buffer := w.content_buffer.eraseIdx w.cy
          render_buffer := w.render_buffer.eraseIdx w.cy }
        { w with cy := w.cy - 1 }
    { w with dirty := true }

/-- Model of `Window::break_line` from src/window.rs. -/
def break_line (w : EditorState) : EditorState :=
  let line := w.content_buffer.getD w.cy []
  let remain := line.take w.cx
  let rest := line.drop w.cx
  let w := { w with
    content_buffer := (w.content_buffer.set w.cy remain).insertIdx (w.cy + 1) rest }
  let w := editor_insert_row w (w.cy + 1)
  let w := editor_update_row w w.cy
  { w with cy := w.cy + 1, cx := 0, dirty := true }

/-- The `cx = min(cx, line_length)` clamp at the end of `Window::move_cursor`
(src/window.rs lines 316-320). -/
def move_clamp (w : EditorState) : EditorState :=
  { w with cx := min w.cx (line_len_at w w.cy) }

/-- One full `move_cursor(Up)` call (including its trailing clamp), used both
directly and inside `PageUp`. -/
def cursor_up (w : EditorState) : EditorState :=
  move_clamp { w with cy := if 0 < w.cy then w.cy - 1 else w.cy }

/-- One full `move_cursor(Down)` call (including its trailing clamp). -/
def cursor_down (w : EditorState) : EditorState :=
  move_clamp { w with cy := if w.cy < w.content_buffer.length then w.cy + 1 else w.cy }

/-- Model of `Window::move_cursor` from src/window.rs.  `PageUp`/`PageDown` perform
`self.rows` recursive `move_cursor(Up)`/`move_cursor(Down)` calls, modelled
with `cursor_up`/`cursor_down` iterates; every path ends in the clamp. -/
def move_cursor (w : EditorState) : CursorMoveDirection → EditorState
  | CursorMoveDirection.Down => cursor_down w
  | CursorMoveDirection.Up => cursor_up w
  | CursorMoveDirection.Right =>
    move_clamp
      (match w.content_buffer.get? w.cy with
       | some line =>
         if w.cx < line.length then { w with cx := w.cx + 1 }
         else if w.cx = line.length then { w with cy := w.cy + 1, cx := 0 }
         else w
       | none => w)
  | CursorMoveDirection.Left =>
    move_clamp
      (if 0 < w.cx then { w with cx := w.cx - 1 }
       else if 0 < w.cy then
         let w1 := { w with cy := w.cy - 1 }
         { w1 with cx := line_len_at w1 w1.cy }
       else w)
  | CursorMoveDirection.PageUp =>
    move_clamp (cursor_up^[w.rows] { w with cy := w.row_offset })
  | CursorMoveDirection.PageDown =>
    let w1 := { w with cy := w.row_offset + w.rows - 1 }
    let w2 :=
      if w1.cy > w1.content_buffer.length then { w1 with cy := w1.content_buffer.length }
      else w1
    move_clamp (cursor_down^[w.rows] w2)
  | CursorMoveDirection.LineTop => move_clamp { w with cx := 0 }
  | CursorMoveDirection.LineBottom =>
    move_clamp
      (match w.content_buffer.get? w.cy with
       | some line => { w with cx := min (w.columns + w.col_offset - 1) line.length }
       | none => { w with cx := 0 })

/-- Model of `Window::open_file` from src/window.rs: push each line's render and
content, then build the highlight state from the (canonicalized) path.  File
reading is external; the lines arrive as an argument. -/
def open_file (w : EditorState) (filename : List Char) (lines : List (List Char)) : EditorState :=
  let content := w.content_buffer ++ lines
  { w with
    filename := some filename
    content_buffer := content
    render_buffer := w.render_buffer ++ lines.map to_render_line
    highlight := Highlight.new content filename }

/-- Model of `Window::new` from src/window.rs, with the window geometry passed in
(`rows` is already the text area height, i.e. terminal rows minus two).  The
source initializes `highlight` without an `in_comment` field; it is `[]`
here. -/
def initial_window (columns rows : Nat) : EditorState :=
  { cx := 0, rx := 0, cy := 0, rows := rows, columns := columns
    row_offset := 0, col_offset := 0
    content_buffer := [], render_buffer := []
    filename := none, status_message := []
    dirty := false, quit_confirming := false
    search_last_match := none, search_direction := SearchDirection.Forward
    highlight := { stx := FileSyntax.new, highlights := [], in_comment := [] } }

/-- Model of `str::find` (used on the rendered line in `editor_find_callback`): index
of the first occurrence of `q` in `s`. -/
def substr_find : List Char → List Char → Option Nat
  | [], q => if q.isPrefixOf ([] : List Char) then some 0 else none
  | c :: rest, q =>
    if q.isPrefixOf (c :: rest) then some 0
    else (substr_find rest q).map (· + 1)

/-- The `for i in 0..self.render_buffer.len()` loop of
`Window::editor_find_callback` (src/window.rs lines 521-549).  `fuel` counts
the remaining iterations, `i` is the loop counter, `current` the probe index.
Besides the loop's result (the matching line and the match column, if any) it
also returns the list of visited line indices, in order. -/
def find_loop (render : List (List Char)) (content_len : Nat) (query : List Char)
    (forward last_none : Bool) : Nat → Nat → Nat → Option (Nat × Nat) × List Nat
  | 0, _, _ => (none, [])
  | fuel + 1, i, current =>
    let current2 :=
      if i = 0 ∧ last_none then 0
      else if forward then (if current + 1 = content_len then 0 else current + 1)
      else (if current = 0 then content_len - 1 else current - 1)
    match substr_find (render.getD current2 []) query with
    | some index => (some (current2, index), [current2])
    | none =>
      let r := find_loop render content_len query forward last_none fuel (i + 1) current2
      (r.1, current2 :: r.2)

/-- Model of `Window::editor_find_callback` from src/window.rs. -/
def editor_find_callback (w : EditorState) (query : List Char) (key : Nat) : EditorState :=
  if key = 13 ∨ key = 27 then
    { w with search_direction := SearchDirection.Forward, search_last_match := none }
  else
    let w :=
      if key = CTRL_S then { w with search_direction := SearchDirection.Forward }
      else if key = CTRL_R then { w with search_direction := SearchDirection.Backward }
      else { w with search_direction := SearchDirection.Forward, search_last_match := none }
    let w :=
      if w.search_last_match = none then { w with search_direction := SearchDirection.Forward }
      else w
    let current := w.search_last_match.getD 0
    let last_none := decide (w.search_last_match = none)
    let forward := decide (w.search_direction = SearchDirection.Forward)
    match (find_loop w.render_buffer w.content_buffer.length query forward last_none
        w.render_buffer.length 0 current).1 with
    | some (cur, index) =>
      let cx := rx_to_cx index (w.content_buffer.getD cur [])
      let w := { w with search_last_match := some cur, cx := cx, cy := cur, row_offset := cur }
      { w with highlight := w.highlight.match_row cur cx (cx + query.length) }
    | none => w

/-- Model of `str::replace` (used by `editor_prompt` to splice the live query buffer
into the prompt format string); faithful for non-empty patterns. -/
def str_replace : List Char → List Char → List Char → List Char
  | [], _, _ => []
  | c :: rest, pat, rep =>
    if h : pat ≠ [] ∧ pat.isPrefixOf (c :: rest) = true then
      rep ++ str_replace ((c :: rest).drop pat.length) pat rep
    else c :: str_replace rest pat rep
termination_by s _ _ => s.length
decreasing_by
  · have h1 : 0 < pat.length := List.length_pos.mpr h.1
    simp only [List.length_drop, List.length_cons]
    omega
  · simp only [List.length_cons]
    omega

def prompt_brace : List Char := ['\x7b', '\x7d']

/-- Model of `Window::editor_prompt` from src/window.rs, driven by a finite script of
decoded key events in place of the blocking `readkey` loop; returns `none`
when the script runs out before the prompt is confirmed or canceled.  Each
iteration first sets the status message (the `refresh_screen` output is
external).  The source also has a `ControlR` arm, but `InputType` in
src/input.rs has no such variant, so it is unreachable and not modelled. -/
def editor_prompt (callback : Option (EditorState → List Char → Nat → EditorState))
    (format : List Char) :
    EditorState → List Char → List InputType → Option (EditorState × Option (List Char))
  | _, _, [] => none
  | w, prompt_buffer, ev :: rest =>
    let w := editor_set_status_mssage w (str_replace format prompt_brace prompt_buffer)
    match ev with
    | InputType.Char c =>
      if c = 27 then
        let w := editor_set_status_mssage w []
        let w := match callback with | some cb => cb w prompt_buffer 27 | none => w
        some (w, none)
      else if c = 13 then
        let w := editor_set_status_mssage w []
        let w := match callback with | some cb => cb w prompt_buffer 13 | none => w
        some (w, some prompt_buffer)
      else
        let pb := prompt_buffer ++ [Char.ofNat c]
        let w := match callback with | some cb => cb w pb c | none => w
        editor_prompt callback format w pb rest
    | InputType.Backspace => editor_prompt callback format w prompt_buffer.dropLast rest
    | InputType.Del => editor_prompt callback format w prompt_buffer.dropLast rest
    | InputType.ControlS =>
      let w := match callback with | some cb => cb w prompt_buffer CTRL_S | none => w
      editor_prompt callback format w prompt_buffer rest
    | _ => editor_prompt callback format w prompt_buffer rest

def find_fmt : List Char :=
  ("Search " ++ "\x7b\x7d" ++ " (cancel: ESC, forward: C-s, backward: C-r)").toList

/-- Model of `Window::editor_find` from src/window.rs: snapshot cursor, offsets and the
highlight rows; run the prompt with `editor_find_callback`; on cancel restore
cursor and offsets; in every case restore the snapshot of the highlight
rows. -/
def editor_find (w : EditorState) (script : List InputType) (direction_forward : Bool) :
    Option (EditorState × Option (List Char)) :=
  let saved_cx := w.cx
  let saved_cy := w.cy
  let saved_col_offset := w.col_offset
  let saved_row_offset := w.row_offset
  let saved_highlight := w.highlight.highlights
  let w := { w with
    search_direction :=
      if direction_forward then SearchDirection.Forward else SearchDirection.Backward }
  match editor_prompt (some editor_find_callback) find_fmt w [] script with
  | none => none
  | some (w2, query) =>
    let w3 :=
      if query = none then
        { w2 with cx := saved_cx, cy := saved_cy
                  col_offset := saved_col_offset, row_offset := saved_row_offset }
      else w2
    some ({ w3 with highlight := { w3.highlight with highlights := saved_highlight } }, query)

def save_fmt : List Char := ("Save as " ++ "\x7b\x7d" ++ " (ESC to cancel)").toList

/-- The write-and-report tail of `Window::save_file` (src/window.rs lines
479-487): the file write is external and assumed to succeed;
`written_bytes` counts one byte per character plus a newline per line. -/
def save_write (w : EditorState) : EditorState :=
  let written_bytes := (w.content_buffer.map (fun line => line.length + 1)).sum
  let w := editor_set_status_mssage w
    ((toString written_bytes).toList ++ " bytes written to disk".toList)
  { w with dirty := false }

/-- Model of `Window::save_file` from src/window.rs.  When the buffer has no filename
the save-as prompt runs on the remaining input script; after a prompted save
the highlight state is rebuilt from the new filename's syntax and every row is
re-rendered. -/
def save_file (w : EditorState) (script : List InputType) : Option EditorState :=
  match w.filename with
  | some _ => some (save_write w)
  | none =>
    match editor_prompt none save_fmt w [] script with
    | none => none
    | some (w1, none) => some (editor_set_status_mssage w1 "Save aborted".toList)
    | some (w1, some f) =>
      let w2 := save_write w1
      let w3 := { w2 with
        filename := some f
        highlight := Highlight.new w2.content_buffer f }
      some ((List.range w3.content_buffer.length).foldl editor_update_row w3)

/-- Model of `Window::set_control_x` from src/window.rs, driven by the input script. -/
def set_control_x : EditorState → List InputType → Option EditorState
  | _, [] => none
  | w, ev :: rest =>
    let w := editor_set_status_mssage w "C-x -".toList
    match ev with
    | InputType.Char c =>
      if c = 27 then some (editor_set_status_mssage w "C-x esc".toList)
      else some (editor_set_status_mssage w "Command Not Found".toList)
    | InputType.ControlS => save_file (editor_set_status_mssage w "C-x C-s".toList) rest
    | InputType.NoOp => set_control_x w rest
    | _ => some (editor_set_status_mssage w "Command Not Found".toList)

def quit_warning : List Char :=
  "WARNING!!! File has unsaved changed. Press Ctrl-q to quit".toList

/-- Model of `Window::quit` from src/window.rs: the guarded quit confirmation. -/
def Window.quit (w : EditorState) : EditorState × LoopStatus :=
  if w.dirty = true ∧ w.quit_confirming = false then
    ({ editor_set_status_mssage w quit_warning with quit_confirming := true },
      LoopStatus.CONTINUE)
  else (w, LoopStatus.STOP)

/-- Model of `RawMode::process_keypress` from src/input.rs, over an already-decoded
event; `script` feeds any nested prompt loop (`set_control_x`, search).  The
match arms and their order follow the source; every arm that does not return
early falls through to `window.quit_confirming = false`. -/
def process_keypress (w : EditorState) (ev : InputType) (script : List InputType) :
    Option (EditorState × LoopStatus) :=
  match ev with
  | InputType.Char c =>
    if c = 27 then some (w, LoopStatus.CONTINUE)
    else if c = 13 then some ({ break_line w with quit_confirming := false }, LoopStatus.CONTINUE)
    else if c = CTRL_Q then some (Window.quit w)
    else some ({ insert_char w (Char.ofNat c) with quit_confirming := false }, LoopStatus.CONTINUE)
  | InputType.ControlX =>
    (set_control_x w script).map fun w2 => ({ w2 with quit_confirming := false }, LoopStatus.CONTINUE)
  | InputType.Backspace =>
    some ({ delete_char w with quit_confirming := false }, LoopStatus.CONTINUE)
  | InputType.CursorMove d =>
    some ({ move_cursor w d with quit_confirming := false }, LoopStatus.CONTINUE)
  | InputType.Del =>
    some ({ delete_char (move_cursor w CursorMoveDirection.Right) with quit_confirming := false },
      LoopStatus.CONTINUE)
  | InputType.ControlS =>
    (editor_find w script true).map fun p => ({ p.1 with quit_confirming := false }, LoopStatus.CONTINUE)
  | InputType.NoOp => some (w, LoopStatus.CONTINUE)

/-- The editor state after opening a file consisting of the single line
containing one tab character (no recognized extension). -/
def w_c1 : EditorState := open_file (initial_window 80 24) "a.txt".toList [['\t']]

/-- The editor state after opening the two-line C file `"/*"` / `"a"`. -/
def w_c2a : EditorState :=
  open_file (initial_window 80 24) "a.c".toList ["/*".toList, ['a']]

/-- State `w_c2a` with the cursor at the end of line 0, after a backspace that
deletes the `*` of the open marker. -/
def w_c2b : EditorState := delete_char { w_c2a with cy := 0, cx := 2 }

/-- The editor state after opening the two-line C file `"/* a"` / `"b */"`. -/
def w_c5 : EditorState :=
  open_file (initial_window 80 24) "a.c".toList ["/* a".toList, "b */".toList]


/-- A two-line document in a window whose text area is 1 row high, cursor at
the start of line 1 (so `cy = rows`). -/
def w_c6 : EditorState :=
  { open_file (initial_window 80 1) "t.txt".toList [['a', 'b'], ['c', 'd']] with
    cy := 1, cx := 0 }

/-- A five-line document whose query string `"q"` occurs only on line 0, with
the previous search match recorded on line 3. -/
def w_c7 : EditorState :=
  { open_file (initial_window 80 24) "t.txt".toList [['q'], [], [], [], []] with
    search_last_match := some 3 }

/-- An editor state with unsaved changes and the quit confirmation pending. -/
def w_pend : EditorState :=
  { initial_window 80 24 with dirty := true, quit_confirming := true }

/-- An editor state with unsaved changes and no pending confirmation. -/
def w_dirty : EditorState := { initial_window 80 24 with dirty := true }


/-- The sequence of probe indices generated by the forward advance of
`editor_find_callback`'s loop when the previous-match special case does not
apply: repeatedly step `current` by one, wrapping to 0 past `content_len`. -/
def search_probes (content_len : Nat) : Nat → Nat → List Nat
  | 0, _ => []
  | fuel + 1, current =>
    let nxt := if current + 1 = content_len then 0 else current + 1
    nxt :: search_probes content_len fuel nxt

/-- A content line with a tab between two ordinary characters. -/
def l_c3 : List Char := ['a', '\t', 'b']

/-- A search-prompt script: type `q`, then cancel with ESC. -/
def c8_script : List InputType := [InputType.Char 113, InputType.Char 27]

/-- The result of running the search prompt of `c8_script` on `w_c7`. -/
def c8_res : EditorState × Option (List Char) :=
  (editor_find w_c7 c8_script true).getD (w_c7, none)

/-- A dirty one-line buffer with the quit confirmation pending. -/
def w_qc : EditorState :=
  { open_file (initial_window 80 24) "t.txt".toList [['a']] with
    quit_confirming := true, dirty := true }

/-- The result of processing an arrow-key press on `w_qc`. -/
def c9_res : EditorState × LoopStatus :=
  (process_keypress w_qc (InputType.CursorMove CursorMoveDirection.Up) []).getD
    (w_qc, LoopStatus.STOP)

theorem rx_advance_gt (rx : Nat) (c : Char) : rx < rx_advance rx c := by
  unfold rx_advance
  split <;> omega

theorem cx_to_rx_aux_ge (line : List Char) : ∀ cx k rx, rx ≤ cx_to_rx_aux line cx k rx := by
  induction line with
  | nil => intro cx k rx; simp [cx_to_rx_aux]
  | cons c rest ih =>
    intro cx k rx
    simp only [cx_to_rx_aux]
    split
    · exact Nat.le_refl rx
    · exact Nat.le_trans (Nat.le_of_lt (rx_advance_gt rx c)) (ih cx (k + 1) (rx_advance rx c))

theorem cx_to_rx_aux_self (line : List Char) (k rx : Nat) : cx_to_rx_aux line k k rx = rx := by
  cases line <;> simp [cx_to_rx_aux]

theorem cx_to_rx_aux_cons_ne (c : Char) (rest : List Char) (cx k rx : Nat) (h : cx ≠ k) :
    cx_to_rx_aux (c :: rest) cx k rx = cx_to_rx_aux rest cx (k + 1) (rx_advance rx c) := by
  simp only [cx_to_rx_aux]
  rw [if_neg h]

theorem rx_to_cx_aux_cons (rc : Char) (rest : List Char) (rx cx cur : Nat) :
    rx_to_cx_aux (rc :: rest) rx cx cur =
      if rx_advance cur rc > rx then cx else rx_to_cx_aux rest rx (cx + 1) (rx_advance cur rc) := by
  simp only [rx_to_cx_aux]

theorem rx_to_cx_aux_round (line : List Char) :
    ∀ d k rx0 c0, d ≤ line.length →
      rx_to_cx_aux line (cx_to_rx_aux line (k + d) k rx0) c0 rx0 = c0 + d := by
  induction line with
  | nil =>
    intro d k rx0 c0 hd
    simp only [List.length_nil, Nat.le_zero] at hd
    subst hd
    simp [cx_to_rx_aux, rx_to_cx_aux]
  | cons c rest ih =>
    intro d k rx0 c0 hd
    cases d with
    | zero =>
      rw [Nat.add_zero, cx_to_rx_aux_self, rx_to_cx_aux_cons, if_pos (rx_advance_gt rx0 c)]
      omega
    | succ d' =>
      rw [cx_to_rx_aux_cons_ne c rest _ _ _ (by omega)]
      rw [show k + (d' + 1) = (k + 1) + d' from by omega]
      have hge : rx_advance rx0 c ≤ cx_to_rx_aux rest ((k + 1) + d') (k + 1) (rx_advance rx0 c) :=
        cx_to_rx_aux_ge rest _ _ _
      rw [rx_to_cx_aux_cons, if_neg (by omega)]
      rw [ih d' (k + 1) (rx_advance rx0 c) (c0 + 1) (by simp only [List.length_cons] at hd; omega)]
      omega

theorem rx_to_cx_aux_pad (line : List Char) :
    ∀ d k rx0 c0 r, d < line.length →
      cx_to_rx_aux line (k + d) k rx0 ≤ r →
      r < cx_to_rx_aux line (k + d + 1) k rx0 →
      rx_to_cx_aux line r c0 rx0 = c0 + d := by
  induction line with
  | nil => intro d k rx0 c0 r hd; exact absurd hd (by simp)
  | cons c rest ih =>
    intro d k rx0 c0 r hd hlo hhi
    cases d with
    | zero =>
      rw [Nat.add_zero, cx_to_rx_aux_self] at hlo
      rw [Nat.add_zero, cx_to_rx_aux_cons_ne c rest _ _ _ (by omega), cx_to_rx_aux_self] at hhi
      rw [rx_to_cx_aux_cons, if_pos (by omega)]
      omega
    | succ d' =>
      rw [cx_to_rx_aux_cons_ne c rest _ _ _ (by omega),
        show k + (d' + 1) = (k + 1) + d' from by omega] at hlo
      rw [cx_to_rx_aux_cons_ne c rest _ _ _ (by omega),
        show k + (d' + 1) + 1 = (k + 1) + d' + 1 from by omega] at hhi
      have hge : rx_advance rx0 c ≤ cx_to_rx_aux rest ((k + 1) + d') (k + 1) (rx_advance rx0 c) :=
        cx_to_rx_aux_ge rest _ _ _
      rw [rx_to_cx_aux_cons, if_neg (by omega)]
      rw [ih d' (k + 1) (rx_advance rx0 c) (c0 + 1) r
        (by simp only [List.length_cons] at hd; omega) hlo hhi]
      omega

/-- C3: for every content line and every logical column `cx ≤ len(content)`,
converting `cx` to its rendered column (`cx_to_rx`) and back (`rx_to_cx`)
yields `cx` again; and every rendered index inside the span of the character
at `cx` (in particular inside a tab's padding) resolves back to `cx` itself,
not past it. -/
theorem C3_cursor_mapping_round_trip (line : List Char) (cx : Nat) (h : cx ≤ line.length) :
    rx_to_cx (cx_to_rx cx line) line = cx ∧
    (∀ r, cx < line.length → cx_to_rx cx line ≤ r → r < cx_to_rx (cx + 1) line →
      rx_to_cx r line = cx) := by
  constructor
  · have h2 := rx_to_cx_aux_round line cx 0 0 0 h
    rw [Nat.zero_add] at h2
    simpa [cx_to_rx, rx_to_cx] using h2
  · intro r hlt hlo hhi
    have h2 := rx_to_cx_aux_pad line cx 0 0 0 r hlt
      (by rw [Nat.zero_add]; exact hlo) (by rw [Nat.zero_add]; exact hhi)
    simpa [rx_to_cx] using h2

/-- Witness for C3 at the line `"a\tb"` and the tab position `cx = 1`:
the round trip returns 1, and the rendered index 4 (inside the tab's padding,
whose span is `[1, 8)`) also resolves to 1. -/
theorem C3_cursor_mapping_round_trip_witness :
    rx_to_cx (cx_to_rx 1 l_c3) l_c3 = 1 ∧ rx_to_cx 4 l_c3 = 1 :=
  ⟨(C3_cursor_mapping_round_trip l_c3 1 (by decide)).1,
   (C3_cursor_mapping_round_trip l_c3 1 (by decide)).2 4 (by decide) (by decide) (by decide)⟩

/-- C10: whenever the keyword branch fires (`keyword_check` returns a
keyword), at least one character follows the keyword occurrence
(`kw.length + 1 ≤ remaining.length`) and that character is a separator; hence
a keyword occurrence whose last character is the final character of the line
is never classified `Keyword1`/`Keyword2` (the scan `scan_from` emits keyword
colors only through `keyword_check`). -/
theorem C10_keyword_requires_following_separator :
    ∀ (keywords : List (List Char)) (remaining kw : List Char) (is_kw2 : Bool),
      keyword_check keywords remaining = some (kw, is_kw2) →
      kw.length + 1 ≤ remaining.length ∧
        is_separator (remaining.getD kw.length '\x00') = true := by
  intro keywords
  induction keywords with
  | nil => intro remaining kw is2 h; simp [keyword_check] at h
  | cons keyword rest ih =>
    intro remaining kw is2 h
    simp only [keyword_check] at h
    split_ifs at h with h1 h2
    · exact ih remaining kw is2 h
    · have h' : keyword_strip keyword = (kw, is2) := by injection h
      have hk : (keyword_strip keyword).1 = kw := by rw [h']
      rw [hk] at h1 h2
      exact ⟨by omega, h2.2⟩
    · exact ih remaining kw is2 h

/-- Witness for C10: the keyword `if` firing at the head of `"if "`. -/
theorem C10_keyword_requires_following_separator_witness :
    (['i', 'f'] : List Char).length + 1 ≤ (['i', 'f', ' '] : List Char).length ∧
      is_separator ((['i', 'f', ' '] : List Char).getD (['i', 'f'] : List Char).length '\x00')
        = true :=
  C10_keyword_requires_following_separator [['i', 'f']] ['i', 'f', ' '] ['i', 'f'] false
    (by decide)

/-- C1 (code bug): after opening a file whose single line is one tab, the
rendered line has 8 characters but the highlight classification array has
only 1 entry (the scan classifies content characters, not rendered ones);
the same mismatch arises from `insert_char` of a tab into an empty buffer. -/
theorem C1_render_highlight_length_mismatch :
    (w_c1.render_buffer.getD 0 []).length = 8 ∧
    (w_c1.highlight.highlights.getD 0 []).length = 1 ∧
    ((insert_char (initial_window 80 24) '\t').render_buffer.getD 0 []).length = 8 ∧
    ((insert_char (initial_window 80 24) '\t').highlight.highlights.getD 0 []).length = 1 := by
  refine ⟨by decide, by decide, by decide, by decide⟩

/-- C2 (code bug): deleting the `*` of the `"/*"` on line 0 of the C file
`"/*"` / `"a"` makes the scan of line 0 report `Some 1` (line 1 must be
re-scanned), but `editor_update_row` discards that request, so line 1 keeps
its stale `MultilineComment` classification while scanning all lines from
the top of the document yields `Normal`. -/
theorem C2_cascade_not_propagated :
    (w_c2a.highlight.update_row 0 ['/']).2 = some 1 ∧
    w_c2b.content_buffer = [['/'], ['a']] ∧
    w_c2b.highlight.highlights.getD 1 [] = [HighlightColor.MultilineComment] ∧
    (highlight_new C_SYNTAX w_c2b.content_buffer).highlights.getD 1 [] =
      [HighlightColor.Normal] ∧
    w_c2b.highlight.highlights.getD 1 [] ≠
      (highlight_new C_SYNTAX w_c2b.content_buffer).highlights.getD 1 [] := by
  refine ⟨by decide, by decide, by decide, by decide, by decide⟩

/-- C4 (code bug): `to_render_line` pads tabs using the content index, not
the rendered length, so `"\t\t"` renders as 15 spaces while the
specification's expansion (`render_line_spec`) and the editor's own
`cx_to_rx` both place the end of the second tab at column 16. -/
theorem C4_tab_expansion_uses_content_index :
    to_render_line ['\t', '\t'] = List.replicate 15 ' ' ∧
    render_line_spec ['\t', '\t'] = List.replicate 16 ' ' ∧
    (to_render_line ['\t', '\t']).length ≠ (render_line_spec ['\t', '\t']).length ∧
    cx_to_rx 2 ['\t', '\t'] = 16 := by
  refine ⟨by decide, by decide, by decide, by decide⟩

/-- C5 (code bug): opening `"/* a"` / `"b */"` as C classifies every
character of both lines `MultilineComment`, but the close-marker branch sets
`skip = mce.len() - 2`, so the final `/` is processed a second time and the
second line's array has 5 entries (a trailing `Normal`) for its 4
characters; the carried `in_comment` states are `[true, false]`. -/
theorem C5_block_comment_classification :
    w_c5.highlight.highlights =
      [List.replicate 4 HighlightColor.MultilineComment,
       [HighlightColor.MultilineComment, HighlightColor.MultilineComment,
        HighlightColor.MultilineComment, HighlightColor.MultilineComment,
        HighlightColor.Normal]] ∧
    w_c5.highlight.in_comment = [true, false] ∧
    (w_c5.highlight.highlights.getD 1 []).length = 5 ∧
    ("b */".toList).length = 4 := by
  refine ⟨by decide, by decide, by decide, by decide⟩

/-- C6 (code bug): with a window text area of 1 row, a backspace at
`(cy = 1, cx = 0)` of a two-line document is a complete no-op (the guard
compares `cy` with the window height `self.rows` instead of the document
length), so the lines are not joined and the dirty flag stays clear. -/
theorem C6_backspace_join_blocked_by_rows_guard :
    delete_char w_c6 = w_c6 ∧ 0 < w_c6.cy ∧ w_c6.cx = 0 ∧ w_c6.cy = w_c6.rows ∧
    w_c6.content_buffer = [['a', 'b'], ['c', 'd']] ∧
    (delete_char w_c6).content_buffer ≠ ["abcd".toList] ∧
    (delete_char w_c6).dirty = false :=
  ⟨rfl, by decide, rfl, rfl, rfl, by decide, rfl⟩

theorem search_probes_length (n : Nat) : ∀ fuel cur, (search_probes n fuel cur).length = fuel := by
  intro fuel
  induction fuel with
  | zero => intro cur; simp [search_probes]
  | succ fuel ih => intro cur; simp [search_probes, ih]

theorem find_loop_visited_sublist (render : List (List Char)) (n : Nat) (q : List Char) :
    ∀ fuel i cur,
      List.Sublist (find_loop render n q true false fuel i cur).2 (search_probes n fuel cur) := by
  intro fuel
  induction fuel with
  | zero => intro i cur; simp [find_loop, search_probes]
  | succ fuel ih =>
    intro i cur
    simp only [find_loop, search_probes, Bool.false_eq_true, and_false, if_false,
      eq_self_iff_true, if_true]
    cases hf : substr_find (render.getD (if cur + 1 = n then 0 else cur + 1) []) q with
    | some idx =>
      simp only [hf]
      exact List.Sublist.cons₂ _ (List.nil_sublist _)
    | none =>
      simp only [hf]
      exact List.Sublist.cons₂ _ (ih (i + 1) _)

theorem search_probes_eq (n : Nat) :
    ∀ fuel cur, cur < n →
      search_probes n fuel cur = (List.range fuel).map (fun j => (cur + 1 + j) % n) := by
  intro fuel
  induction fuel with
  | zero => intro cur _; simp [search_probes]
  | succ fuel ih =>
    intro cur hcur
    have h0 : 0 < n := by omega
    have hnxt : (if cur + 1 = n then 0 else cur + 1) = (cur + 1) % n := by
      split
      · rename_i heq; rw [heq, Nat.mod_self]
      · rename_i hne; exact (Nat.mod_eq_of_lt (by omega)).symm
    simp only [search_probes]
    rw [hnxt, ih ((cur + 1) % n) (Nat.mod_lt _ h0),
      List.range_succ_eq_map, List.map_cons, List.map_map]
    congr 1
    apply List.map_congr_left
    intro j hj
    simp only [Function.comp_apply]
    have e1 : (cur + 1) % n + 1 + j = (cur + 1) % n + (1 + j) := by omega
    rw [e1, Nat.mod_add_mod]
    congr 1
    omega

theorem search_probes_nodup (n fuel cur : Nat) (hcur : cur < n) (hfuel : fuel ≤ n) :
    (search_probes n fuel cur).Nodup := by
  rw [search_probes_eq n fuel cur hcur]
  refine List.Nodup.map_on ?_ (List.nodup_range fuel)
  intro x hx y hy hxy
  rw [List.mem_range] at hx hy
  have h2 : x ≡ y [MOD n] := Nat.ModEq.add_left_cancel' (cur + 1) hxy
  have h3 : x % n = y % n := h2
  rw [Nat.mod_eq_of_lt (by omega), Nat.mod_eq_of_lt (by omega)] at h3
  exact h3

/-- C7: searching forward for `"q"` (present only on line 0 of the 5-line
document `w_c7`) from the recorded match on line 3 wraps past the last line
and sets `search_last_match`, `cy` and `row_offset` to line 0, visiting only
lines 4 and 0; a repeated find-next from line 0 visits `[1, 2, 3, 4, 0]`;
and in general a forward probe pass starting below the line count visits
pairwise-distinct lines, at most one full pass. -/
theorem C7_search_wrap_single_pass :
    (editor_find_callback w_c7 ['q'] CTRL_S).search_last_match = some 0 ∧
    (editor_find_callback w_c7 ['q'] CTRL_S).cy = 0 ∧
    (editor_find_callback w_c7 ['q'] CTRL_S).row_offset = 0 ∧
    (find_loop w_c7.render_buffer 5 ['q'] true false 5 0 3).2 = [4, 0] ∧
    (find_loop w_c7.render_buffer 5 ['q'] true false 5 0 0).2 = [1, 2, 3, 4, 0] ∧
    (∀ (render : List (List Char)) (n : Nat) (query : List Char) (fuel s : Nat),
      s < n → fuel ≤ n →
      ((find_loop render n query true false fuel 0 s).2.Nodup ∧
        (find_loop render n query true false fuel 0 s).2.length ≤ fuel)) := by
  refine ⟨by decide, by decide, by decide, by decide, by decide, ?_⟩
  intro render n query fuel s hs hf
  have hsub := find_loop_visited_sublist render n query fuel 0 s
  constructor
  · exact List.Nodup.sublist hsub (search_probes_nodup n fuel s hs hf)
  · have hlen := List.Sublist.length_le hsub
    rw [search_probes_length n fuel s] at hlen
    exact hlen

/-- Witness for C7: the general single-pass bound instantiated at the
concrete 5-line search starting from line 3. -/
theorem C7_search_wrap_single_pass_witness :
    (find_loop w_c7.render_buffer 5 ['q'] true false 5 0 3).2.Nodup ∧
      (find_loop w_c7.render_buffer 5 ['q'] true false 5 0 3).2.length ≤ 5 :=
  C7_search_wrap_single_pass.2.2.2.2.2 w_c7.render_buffer 5 ['q'] 5 3 (by decide) (by decide)

/-- C8: whenever the search prompt terminates, a canceled search
(`qres = none`) restores `cx`, `cy`, `row_offset`, `col_offset` and the
highlight rows to their values captured at search entry, and a confirmed
search (`qres = some q`) keeps the prompt-final cursor and offsets while
still restoring the entry snapshot of the highlight rows (reverting the
transient `Match` overlay). -/
theorem C8_search_prompt_restore (w : EditorState) (script : List InputType)
    (direction_forward : Bool) (w' : EditorState) (qres : Option (List Char))
    (h : editor_find w script direction_forward = some (w', qres)) :
    (qres = none →
      w'.cx = w.cx ∧ w'.cy = w.cy ∧ w'.row_offset = w.row_offset ∧
        w'.col_offset = w.col_offset ∧
        w'.highlight.highlights = w.highlight.highlights) ∧
    (∀ q, qres = some q →
      w'.highlight.highlights = w.highlight.highlights ∧
      ∃ wp, editor_prompt (some editor_find_callback) find_fmt
          { w with search_direction :=
              if direction_forward then SearchDirection.Forward else SearchDirection.Backward }
          [] script = some (wp, some q) ∧
        w'.cx = wp.cx ∧ w'.cy = wp.cy ∧ w'.row_offset = wp.row_offset ∧
          w'.col_offset = wp.col_offset) := by
  unfold editor_find at h
  simp only [] at h
  cases hp : editor_prompt (some editor_find_callback) find_fmt
      { w with search_direction :=
          if direction_forward then SearchDirection.Forward else SearchDirection.Backward }
      [] script with
  | none =>
    rw [hp] at h
    simp at h
  | some p =>
    obtain ⟨w2, query⟩ := p
    rw [hp] at h
    simp only [Option.some.injEq, Prod.mk.injEq] at h
    obtain ⟨hw', hq⟩ := h
    subst hq
    cases query with
    | none =>
      refine ⟨fun _ => ?_, fun q hq2 => by simp at hq2⟩
      rw [← hw']
      simp
    | some q' =>
      refine ⟨fun hq2 => by simp at hq2, fun q hq2 => ?_⟩
      obtain rfl : q' = q := by injection hq2
      constructor
      · rw [← hw']
      · refine ⟨w2, rfl, ?_⟩
        rw [← hw']
        simp

/-- Witness for C8: canceling a search for `"q"` on `w_c7` (script: type `q`,
press ESC) restores cursor and highlight rows. -/
theorem C8_search_prompt_restore_witness :
    editor_find w_c7 c8_script true = some (c8_res.1, c8_res.2) ∧
    c8_res.2 = none ∧
    c8_res.1.cx = w_c7.cx ∧ c8_res.1.cy = w_c7.cy ∧
    c8_res.1.highlight.highlights = w_c7.highlight.highlights := by
  have heq : editor_find w_c7 c8_script true = some (c8_res.1, c8_res.2) := rfl
  have h := (C8_search_prompt_restore w_c7 c8_script true c8_res.1 c8_res.2 heq).1 rfl
  exact ⟨heq, rfl, h.1, h.2.1, h.2.2.2.2⟩

/-- Counterexample for C9: with the dirty flag set and the quit confirmation
pending, an intervening Escape keypress leaves the editor state (including
`quit_confirming`) completely unchanged, so the next quit request terminates
the session instead of warning again — refuting "any other intervening
command resets the pending confirmation". -/
theorem C9_escape_leaves_confirmation_pending :
    process_keypress w_pend (InputType.Char 27) [] = some (w_pend, LoopStatus.CONTINUE) ∧
    w_pend.dirty = true ∧ w_pend.quit_confirming = true ∧
    (Window.quit w_pend).2 = LoopStatus.STOP :=
  ⟨rfl, rfl, rfl, by decide⟩

/-- C9 (amended): a quit keypress routes to `Window.quit`; when the dirty
flag is set and no confirmation is pending, `quit` only sets the warning
status message and the pending flag and the session continues; a quit issued
while the confirmation is pending stops the session; and every other
processed keypress except the Escape key and absent input (`NoOp`) resets
the pending confirmation. -/
theorem C9_quit_confirmation_guard :
    (∀ (w : EditorState) (script : List InputType),
      process_keypress w (InputType.Char CTRL_Q) script = some (Window.quit w)) ∧
    (∀ w : EditorState, w.dirty = true → w.quit_confirming = false →
      Window.quit w =
        ({ editor_set_status_mssage w quit_warning with quit_confirming := true },
          LoopStatus.CONTINUE)) ∧
    (∀ w : EditorState, w.quit_confirming = true → (Window.quit w).2 = LoopStatus.STOP) ∧
    (∀ (w : EditorState) (ev : InputType) (script : List InputType)
        (w' : EditorState) (ls : LoopStatus),
      process_keypress w ev script = some (w', ls) →
      ev ≠ InputType.Char 27 → ev ≠ InputType.Char CTRL_Q → ev ≠ InputType.NoOp →
      w'.quit_confirming = false) := by
  refine ⟨?_, ?_, ?_, ?_⟩
  · intro w script
    rfl
  · intro w h1 h2
    unfold Window.quit
    rw [if_pos ⟨h1, h2⟩]
  · intro w h
    unfold Window.quit
    rw [if_neg (by simp [h])]
  · intro w ev script w' ls h h27 hq hnoop
    cases ev with
    | CursorMove d =>
      simp only [process_keypress, Option.some.injEq, Prod.mk.injEq] at h
      rw [← h.1]
    | Char c =>
      by_cases hc27 : c = 27
      · exact absurd (by rw [hc27]) h27
      by_cases hc13 : c = 13
      · subst hc13
        simp only [process_keypress, if_neg hc27, eq_self_iff_true, if_true,
          Option.some.injEq, Prod.mk.injEq] at h
        rw [← h.1]
      by_cases hcq : c = CTRL_Q
      · exact absurd (by rw [hcq]) hq
      · simp only [process_keypress, if_neg hc27, if_neg hc13, if_neg hcq,
          Option.some.injEq, Prod.mk.injEq] at h
        rw [← h.1]
    | ControlX =>
      simp only [process_keypress] at h
      obtain ⟨w2, hw2, hmap⟩ := Option.map_eq_some'.mp h
      rw [Prod.mk.injEq] at hmap
      rw [← hmap.1]
    | ControlS =>
      simp only [process_keypress] at h
      obtain ⟨p, hp2, hmap⟩ := Option.map_eq_some'.mp h
      rw [Prod.mk.injEq] at hmap
      rw [← hmap.1]
    | Backspace =>
      simp only [process_keypress, Option.some.injEq, Prod.mk.injEq] at h
      rw [← h.1]
    | Del =>
      simp only [process_keypress, Option.some.injEq, Prod.mk.injEq] at h
      rw [← h.1]
    | NoOp => exact absurd rfl hnoop

/-- Witness for C9: the guard applied to concrete states — a first quit on a
dirty buffer continues (after warning), a quit with the confirmation pending
stops, and an arrow-key press resets the pending confirmation. -/
theorem C9_quit_confirmation_guard_witness :
    process_keypress w_dirty (InputType.Char CTRL_Q) [] = some (Window.quit w_dirty) ∧
    (Window.quit w_dirty).2 = LoopStatus.CONTINUE ∧
    (Window.quit w_pend).2 = LoopStatus.STOP ∧
    c9_res.1.quit_confirming = false := by
  refine ⟨C9_quit_confirmation_guard.1 w_dirty [], ?_,
    C9_quit_confirmation_guard.2.2.1 w_pend rfl, ?_⟩
  · rw [C9_quit_confirmation_guard.2.1 w_dirty rfl rfl]
  · exact C9_quit_confirmation_guard.2.2.2 w_qc
      (InputType.CursorMove CursorMoveDirection.Up) [] c9_res.1 c9_res.2 rfl
      (by decide) (by decide) (by decide)
